import Mathlib

/-!
Verification of the frame-sampling / inference / aggregation pipeline of
`src/analysis.py` (DeepFace-Demonstration).  The pipeline is shallowly
embedded: frames are pixel-buffer dimensions, emotion-score mappings are
association lists in dict iteration (insertion) order with rational scores,
the external DeepFace model is an opaque per-frame outcome, and the
unordered multiprocessing completion stream is an arbitrary permutation of
the per-task worker outputs.
-/

namespace DeepFaceDemo

/-- Thresholds read from `config.py`: `FACE_CONFIDENCE_THRESHOLD = 0.8`,
`EMOTION_SCORE_THRESHOLD = 50`.  Scores are modelled as rationals. -/
structure Config where
  FACE_CONFIDENCE_THRESHOLD : ℚ
  EMOTION_SCORE_THRESHOLD : ℚ
deriving DecidableEq

/-- The concrete threshold values of `config.py`. -/
def config : Config :=
  { FACE_CONFIDENCE_THRESHOLD := 0.8, EMOTION_SCORE_THRESHOLD := 50 }

/-- The list `emotions_list` of `analyse_video_internal` (analysis.py line 254),
also used for the combined table (line 361). -/
def emotions_list : List String :=
  ["angry", "disgust", "fear", "happy", "sad", "surprise", "neutral"]

/-- A decoded frame, reduced to the pixel-buffer dimensions the pipeline
inspects: `frame.shape[0]` (height) and `frame.shape[1]` (width). -/
structure Frame where
  height : Nat
  width : Nat
deriving DecidableEq

/-- Number of entries of the pixel buffer, as tested by `frame.size == 0`. -/
def Frame.size (f : Frame) : Nat := f.height * f.width

/-- The check opening `analyse_emotion_multiproc` (line 124):
`frame is None or frame.size == 0 or frame.shape[0] == 0 or frame.shape[1] == 0`. -/
def invalid_frame : Option Frame → Bool
  | none => true
  | some f => f.size == 0 || f.height == 0 || f.width == 0

/-- An emotion-score mapping: a python dict in iteration order. -/
abbrev Emo : Type := List (String × ℚ)

/-- One call of the external model `DeepFace.analyze` on a frame: it either
raises an exception or returns the first face's attribute dict, of which the
pipeline reads the emotion mapping, the face confidence and the region.
External collaborator (spec section 6); opaque to the pipeline. -/
inductive ModelCall where
  | raises : ModelCall
  | returns (emotion : Emo) (face_confidence : ℚ) (region : String) : ModelCall
deriving DecidableEq

/-- Python `max(emo, key=emo.get)` paired with the maximal score it scanned:
`max` keeps the current best and replaces it only on a strictly larger value,
so the first key attaining the maximum wins a tie. -/
def maxEntryAux (best : String × ℚ) : Emo → String × ℚ
  | [] => best
  | p :: rest => maxEntryAux (if p.2 > best.2 then p else best) rest

/-- Python `max(emo, key=emo.get)` on a possibly empty dict: `none` models the
`ValueError` raised on an empty mapping. -/
def maxEntry : Emo → Option (String × ℚ)
  | [] => none
  | p :: rest => some (maxEntryAux p rest)

/-- Function `get_dominant_emotion` (analysis.py lines 86-100).  The code
re-reads `emo[dominant]`; since a dict has unique keys that is exactly the
maximal value the `max` scan carried along, here `dominant.2`. -/
def get_dominant_emotion (cfg : Config) (emo : Emo) : String :=
  match maxEntry emo with
  | none => "no emotion detected"
  | some dominant =>
      if dominant.2 ≥ cfg.EMOTION_SCORE_THRESHOLD then dominant.1
      else "no dominant emotion detected"

/-- The fields of `analysis[0]` that the pipeline reads downstream, after the
worker attached `frame_number` (line 138). -/
structure AnalysisDict where
  frame_number : Nat
  emotion : Emo
  face_confidence : ℚ
  region : String
deriving DecidableEq

/-- The worker's return triple `(analysis_dict, candidate, error)`. -/
abbrev Completion : Type := Option AnalysisDict × Option String × Option String

/-- Worker function `analyse_emotion_multiproc` (analysis.py lines 114-144).
An invalid frame is rejected before the model is consulted; an exception from
the model, and equally the `ValueError` of `max` on an empty emotion mapping,
is caught and turned into the error message; otherwise the analysis dict and
the candidate dominant emotion are returned. -/
def analyse_emotion_multiproc (frame : Option Frame) (frame_number : Nat)
    (backend : String) (model : ModelCall) : Completion :=
  if invalid_frame frame then
    (none, none, some ("Invalid frame at frame number " ++ toString frame_number ++ "."))
  else
    match model with
    | ModelCall.raises =>
        (none, none,
          some ("Error in analysis in frame " ++ toString frame_number ++ " with " ++ backend))
    | ModelCall.returns emotions face_confidence region =>
        match maxEntry emotions with
        | none =>
            (none, none,
              some ("Error in analysis in frame " ++ toString frame_number ++ " with " ++ backend))
        | some candidate =>
            (some { frame_number := frame_number, emotion := emotions,
                    face_confidence := face_confidence, region := region },
              some candidate.1, none)

/-- The frame-collection loop of `analyse_video_internal` (lines 183-195):
walks every decoded frame, appending the task `(frame, frame_number, 'opencv')`
whenever `frame_number % frame_step == 0`. -/
def collectTasks (frames : List Frame) (frame_number : Nat) (frame_step : Nat) :
    List (Frame × Nat × String) :=
  match frames with
  | [] => []
  | f :: rest =>
      (if frame_number % frame_step = 0 then [(f, frame_number, "opencv")] else []) ++
        collectTasks rest (frame_number + 1) frame_step

/-- The task list for a video, with `frame_number` starting at 0; the number of
decoded frames (`total_frames`) is `video.length`. -/
def sampled_tasks (video : List Frame) (frame_step : Nat) : List (Frame × Nat × String) :=
  collectTasks video 0 frame_step

/-- The multiset of worker outputs for a video: one completion per sampled
task.  `model` gives the external model's behaviour on each frame index.  The
pool's `imap_unordered` delivers these in an arbitrary order, so downstream
facts are stated for any permutation of this list. -/
def taskOutputs (video : List Frame) (frame_step : Nat) (model : Nat → ModelCall) :
    List Completion :=
  (sampled_tasks video frame_step).map fun t =>
    analyse_emotion_multiproc (some t.1) t.2.1 t.2.2 (model t.2.1)

/-- One iteration of the result-collection loop (lines 226-234) on the state
`(results, analysed_frames, unsuccessful_retries)`: `if analysis_dict:`
appends to `results` (the dict, when present, contains at least
`frame_number`, hence is truthy), `elif error:` counts a retry. -/
def collectStep (st : List AnalysisDict × Nat × Nat) (res : Completion) :
    List AnalysisDict × Nat × Nat :=
  match res with
  | (some d, _, _) => (st.1 ++ [d], st.2.1 + 1, st.2.2)
  | (none, _, some _) => (st.1, st.2.1, st.2.2 + 1)
  | (none, _, none) => st

/-- The result-collection loop over the completion stream, yielding
`(results, analysed_frames, unsuccessful_retries)`. -/
def collectResults (completions : List Completion) : List AnalysisDict × Nat × Nat :=
  completions.foldl collectStep ([], 0, 0)

/-- Shared progress counter update (lines 207-217): increment under the lock,
then decide whether a decile progress line is logged.  Returns the new counter
value and the logging decision. -/
def update_progress (total_tasks : Nat) (progress_counter : Nat) : Nat × Bool :=
  let current_progress := progress_counter + 1
  (current_progress, current_progress % max 1 (total_tasks / 10) == 0)

/-- One iteration of the drain loop with the progress side channel: the
callback `update_progress` fires on the completion, then the result is
collected.  State is the collection state, the shared counter, and the trace
of logging decisions. -/
def drainStep (total_tasks : Nat) (st : (List AnalysisDict × Nat × Nat) × Nat × List Bool)
    (res : Completion) : (List AnalysisDict × Nat × Nat) × Nat × List Bool :=
  let p := update_progress total_tasks st.2.1
  (collectStep st.1 res, p.1, st.2.2 ++ [p.2])

/-- The drain loop over the completion stream (lines 226-234) with the
progress side channel threaded through. -/
def drainLoop (total_tasks : Nat) (completions : List Completion) :
    (List AnalysisDict × Nat × Nat) × Nat × List Bool :=
  completions.foldl (drainStep total_tasks) (([], 0, 0), 0, [])

/-- A row of the per-video (and combined) table; one field per column. -/
structure Row where
  frame_number : Nat
  dominant_emotion : String
  angry : ℚ
  disgust : ℚ
  fear : ℚ
  happy : ℚ
  sad : ℚ
  surprise : ℚ
  neutral : ℚ
  face_confidence : ℚ
  region : String
  raw_output : Emo
  source : String
deriving DecidableEq

/-- Gated per-emotion column (lines 257-262):
`row['raw_output'].get(emo, 0) if row['face_confidence'] >= threshold else 0`. -/
def gated_score (cfg : Config) (d : AnalysisDict) (emo : String) : ℚ :=
  if d.face_confidence ≥ cfg.FACE_CONFIDENCE_THRESHOLD then
    (List.lookup emo d.emotion).getD 0
  else 0

/-- Dominant-emotion column (lines 265-269): the sentinel below the face
threshold, otherwise `get_dominant_emotion` on the raw mapping. -/
def dominant_column (cfg : Config) (d : AnalysisDict) : String :=
  if d.face_confidence < cfg.FACE_CONFIDENCE_THRESHOLD then "no face detected"
  else get_dominant_emotion cfg d.emotion

/-- The row the aggregator derives from one successful analysis dict
(lines 249-277): renamed `raw_output`, gated emotion columns, recomputed
dominant label, and the appended `source` column. -/
def buildRow (cfg : Config) (source : String) (d : AnalysisDict) : Row :=
  { frame_number := d.frame_number
    dominant_emotion := dominant_column cfg d
    angry := gated_score cfg d "angry"
    disgust := gated_score cfg d "disgust"
    fear := gated_score cfg d "fear"
    happy := gated_score cfg d "happy"
    sad := gated_score cfg d "sad"
    surprise := gated_score cfg d "surprise"
    neutral := gated_score cfg d "neutral"
    face_confidence := d.face_confidence
    region := d.region
    raw_output := d.emotion
    source := source }

/-- Row order used by `df.sort_values(by="frame_number")` (line 280). -/
def frameLE (a b : Row) : Prop := a.frame_number ≤ b.frame_number

instance : DecidableRel frameLE := fun a b => Nat.decLe a.frame_number b.frame_number

instance : IsTotal Row frameLE := ⟨fun a b => Nat.le_total a.frame_number b.frame_number⟩

instance : IsTrans Row frameLE := ⟨fun _ _ _ => Nat.le_trans⟩

/-- Row order used by `sort_values(by=["source", "frame_number"])` (line 358):
sources compared first, frame numbers breaking ties. -/
def sourceFrameLE (a b : Row) : Prop :=
  a.source < b.source ∨ (a.source = b.source ∧ a.frame_number ≤ b.frame_number)

instance : DecidableRel sourceFrameLE := fun a b =>
  inferInstanceAs (Decidable (_ ∨ _))

instance : IsTotal Row sourceFrameLE := by
  constructor
  intro a b
  rcases lt_trichotomy a.source b.source with h | h | h
  · exact Or.inl (Or.inl h)
  · rcases Nat.le_total a.frame_number b.frame_number with hf | hf
    · exact Or.inl (Or.inr ⟨h, hf⟩)
    · exact Or.inr (Or.inr ⟨h.symm, hf⟩)
  · exact Or.inr (Or.inl h)

instance : IsTrans Row sourceFrameLE := by
  constructor
  intro a b c hab hbc
  rcases hab with h1 | ⟨h1, h1f⟩
  · rcases hbc with h2 | ⟨h2, _⟩
    · exact Or.inl (h1.trans h2)
    · exact Or.inl (h2 ▸ h1)
  · rcases hbc with h2 | ⟨h2, h2f⟩
    · exact Or.inl (h1 ▸ h2)
    · exact Or.inr ⟨h1.trans h2, h1f.trans h2f⟩

/-- The table-building tail of `analyse_video_internal` (lines 247-285),
as a function of the completion stream: collect the successful dicts, derive
each row, sort ascending by `frame_number`, and emit the table.  (pandas
`sort_values` is modelled by insertion sort; the claims checked below are
independent of which correct sorting algorithm is used.) -/
def analyse_video_internal (cfg : Config) (source : String)
    (completions : List Completion) : List Row :=
  List.insertionSort frameLE (((collectResults completions).1).map (buildRow cfg source))

/-- The combining tail of `process_all_videos` (lines 354-366): concatenate
all per-video tables and sort by source, then frame number. -/
def process_all_videos (tables : List (List Row)) : List Row :=
  List.insertionSort sourceFrameLE tables.flatten

/-- Columns present in the per-video DataFrame before reordering: the keys of
the DeepFace attribute dict (with `emotion` renamed to `raw_output`, line 251)
together with the attached `frame_number` and the seven per-emotion columns
and recomputed `dominant_emotion` assigned in lines 257-269. -/
def df_columns : List String :=
  ["raw_output", "dominant_emotion", "region", "face_confidence", "frame_number"]
    ++ emotions_list

/-- Per-video column order (lines 271-277): the declared ordering filtered by
presence, with `source` appended last by the assignment `df['source']`. -/
def columns_order_per_video : List String :=
  ((["frame_number", "dominant_emotion"] ++ emotions_list
      ++ ["face_confidence", "region", "raw_output"]).filter
    fun c => c ∈ df_columns) ++ ["source"]

/-- Combined-table column order (lines 360-366): the declared combined
ordering, `source` in second position, filtered by presence in the
concatenated per-video columns. -/
def combined_columns : List String :=
  (["frame_number", "source", "dominant_emotion"] ++ emotions_list
      ++ ["face_confidence", "region", "raw_output"]).filter
    fun c => c ∈ columns_order_per_video

/-! Basic lemmas about the worker and the collection loop. -/

theorem maxEntryAux_spec (l : Emo) : ∀ best : String × ℚ,
    maxEntryAux best l ∈ best :: l ∧ best.2 ≤ (maxEntryAux best l).2 ∧
      ∀ q ∈ l, q.2 ≤ (maxEntryAux best l).2 := by
  induction l with
  | nil => intro best; simp [maxEntryAux]
  | cons p rest ih =>
      intro best
      obtain ⟨hmem, hbest, hall⟩ := ih (if p.2 > best.2 then p else best)
      have hb2 : best.2 ≤ (if p.2 > best.2 then p else best).2 := by
        split <;> simp_all [le_of_lt]
      have hp2 : p.2 ≤ (if p.2 > best.2 then p else best).2 := by
        split
        · exact le_rfl
        · simp_all [not_lt]
      refine ⟨?_, hb2.trans hbest, ?_⟩
      · simp only [maxEntryAux]
        rcases List.mem_cons.mp hmem with h | h
        · rw [h]; split <;> simp
        · simp [h]
      · intro q hq
        simp only [maxEntryAux]
        rcases List.mem_cons.mp hq with h | h
        · exact h ▸ hp2.trans hbest
        · exact hall q h

theorem maxEntry_spec {l : Emo} {m : String × ℚ} (h : maxEntry l = some m) :
    m ∈ l ∧ ∀ q ∈ l, q.2 ≤ m.2 := by
  cases l with
  | nil => simp [maxEntry] at h
  | cons p rest =>
      obtain ⟨hmem, _, hall⟩ := maxEntryAux_spec rest p
      have hm : m = maxEntryAux p rest := by
        simpa [maxEntry] using h.symm
      subst hm
      refine ⟨hmem, ?_⟩
      intro q hq
      rcases List.mem_cons.mp hq with h1 | h1
      · obtain ⟨_, hb, _⟩ := maxEntryAux_spec rest p
        exact h1 ▸ hb
      · exact hall q h1

theorem collect_foldl (L : List Completion) : ∀ acc : List AnalysisDict, ∀ a r : Nat,
    L.foldl collectStep (acc, a, r)
      = (acc ++ L.filterMap (fun c => c.1),
          a + L.countP (fun c => c.1.isSome),
          r + L.countP (fun c => c.1.isNone && c.2.2.isSome)) := by
  induction L with
  | nil => intro acc a r; simp
  | cons c rest ih =>
      intro acc a r
      obtain ⟨o1, o2, o3⟩ := c
      cases o1 <;> cases o3 <;>
        simp [collectStep, List.countP_cons, ih, List.append_assoc] <;> omega

theorem collectResults_fields (L : List Completion) :
    (collectResults L).1 = L.filterMap (fun c => c.1) ∧
      (collectResults L).2.1 = L.countP (fun c => c.1.isSome) ∧
      (collectResults L).2.2 = L.countP (fun c => c.1.isNone && c.2.2.isSome) := by
  have h := collect_foldl L [] 0 0
  unfold collectResults
  rw [h]
  simp

theorem analyse_shape (frame : Option Frame) (n : Nat) (b : String) (m : ModelCall) :
    ((analyse_emotion_multiproc frame n b m).1.isSome ∧
        (analyse_emotion_multiproc frame n b m).2.2 = none) ∨
      ((analyse_emotion_multiproc frame n b m).1 = none ∧
        (analyse_emotion_multiproc frame n b m).2.2.isSome) := by
  unfold analyse_emotion_multiproc
  split
  · right; simp
  · cases m with
    | raises => right; simp
    | returns e c r =>
        cases h : maxEntry e with
        | none => right; simp [h]
        | some p => left; simp [h]

theorem analyse_invalid (frame : Option Frame) (n : Nat) (b : String) (m : ModelCall)
    (h : invalid_frame frame = true) :
    analyse_emotion_multiproc frame n b m
      = (none, none, some ("Invalid frame at frame number " ++ toString n ++ ".")) := by
  unfold analyse_emotion_multiproc
  simp [h]

theorem analyse_some {frame : Option Frame} {n : Nat} {b : String} {m : ModelCall}
    {d : AnalysisDict} (h : (analyse_emotion_multiproc frame n b m).1 = some d) :
    d.frame_number = n ∧
      (∃ me, maxEntry d.emotion = some me) ∧
      ∃ conf reg, m = ModelCall.returns d.emotion conf reg ∧
        d.face_confidence = conf ∧ d.region = reg := by
  unfold analyse_emotion_multiproc at h
  split at h
  · simp at h
  · cases m with
    | raises => simp at h
    | returns e c r =>
        cases hme : maxEntry e with
        | none => simp [hme] at h
        | some p =>
            simp only [hme, Option.some.injEq] at h
            subst h
            exact ⟨rfl, ⟨p, hme⟩, c, r, rfl, rfl, rfl⟩

theorem drain_foldl (t : Nat) (L : List Completion) :
    ∀ (st : List AnalysisDict × Nat × Nat) (p : Nat) (logs : List Bool),
      (L.foldl (drainStep t) (st, p, logs)).1 = L.foldl collectStep st := by
  induction L with
  | nil => intro st p logs; rfl
  | cons c rest ih => intro st p logs; exact ih (collectStep st c) _ _

/-- C8: the inference worker returns exactly one of a result or a failure
(never both, never neither), and an absent or zero-sized frame yields the
invalid-frame failure with an output independent of the model argument,
i.e. without invoking the external model. -/
theorem worker_totality (frame : Option Frame) (n : Nat) (b : String) (m : ModelCall) :
    ((((analyse_emotion_multiproc frame n b m).1.isSome ∧
        (analyse_emotion_multiproc frame n b m).2.2 = none) ∨
      ((analyse_emotion_multiproc frame n b m).1 = none ∧
        (analyse_emotion_multiproc frame n b m).2.2.isSome)) ∧
    (invalid_frame frame = true →
      analyse_emotion_multiproc frame n b m
        = (none, none, some ("Invalid frame at frame number " ++ toString n ++ ".")))) :=
  ⟨analyse_shape frame n b m, fun h => analyse_invalid frame n b m h⟩

/-- Witness for C8 at a concrete zero-height frame. -/
theorem worker_totality_witness :
    invalid_frame (some (Frame.mk 0 4)) = true ∧
      analyse_emotion_multiproc (some (Frame.mk 0 4)) 3 "opencv" ModelCall.raises
        = (none, none, some ("Invalid frame at frame number " ++ toString 3 ++ ".")) :=
  ⟨by decide,
    (worker_totality (some (Frame.mk 0 4)) 3 "opencv" ModelCall.raises).2 (by decide)⟩

/-- C9: after each increment of the shared counter, the progress line is
logged exactly when the new counter value is divisible by
`max 1 (total_tasks / 10)`, and threading the progress update through the
drain loop leaves the collected results (and counts) unchanged. -/
theorem progress_decile_logging (total_tasks progress_counter : Nat) :
    ((update_progress total_tasks progress_counter).2 = true ↔
      max 1 (total_tasks / 10) ∣ (progress_counter + 1)) ∧
    ∀ completions : List Completion,
      (drainLoop total_tasks completions).1 = collectResults completions := by
  constructor
  · simp [update_progress, Nat.dvd_iff_mod_eq_zero]
  · intro completions
    exact drain_foldl total_tasks completions ([], 0, 0) 0 []

theorem collectTasks_map_index (N : Nat) : ∀ (frames : List Frame) (k : Nat),
    (collectTasks frames k N).map (fun t => t.2.1)
      = ((List.range frames.length).map (fun j => k + j)).filter
          (fun i => decide (i % N = 0))
  | [], _ => rfl
  | f :: rest, k => by
      have ih := collectTasks_map_index N rest (k + 1)
      have hfun : (fun j => k + (j + 1)) = fun j => (k + 1) + j :=
        funext fun j => by omega
      by_cases hk : k % N = 0 <;>
        simp [collectTasks, hk, List.range_succ_eq_map, List.filter_cons, List.map_map,
          Function.comp_def, Nat.succ_eq_add_one, hfun, ih]

theorem sampled_indices (video : List Frame) (N : Nat) :
    (sampled_tasks video N).map (fun t => t.2.1)
      = (List.range video.length).filter (fun i => decide (i % N = 0)) := by
  have h := collectTasks_map_index N video 0
  simpa [sampled_tasks] using h

/-- C3: for stride N ≥ 1, the frame indices submitted as inference tasks have
no duplicates and are exactly the multiples of N strictly below the number of
decoded frames. -/
theorem stride_correctness (video : List Frame) (N : Nat) (hN : 1 ≤ N) :
    ((sampled_tasks video N).map (fun t => t.2.1)).Nodup ∧
      ∀ i : Nat, i ∈ (sampled_tasks video N).map (fun t => t.2.1) ↔
        (N ∣ i ∧ i < video.length) := by
  clear hN
  rw [sampled_indices]
  refine ⟨(List.nodup_range _).filter _, ?_⟩
  intro i
  simp only [List.mem_filter, List.mem_range, decide_eq_true_eq,
    Nat.dvd_iff_mod_eq_zero]
  exact and_comm

/-- Concrete 5-frame video used by several witnesses. -/
def wVideo : List Frame :=
  [Frame.mk 2 2, Frame.mk 2 2, Frame.mk 2 2, Frame.mk 2 2, Frame.mk 2 2]

/-- Witness for C3 with stride 2 on the 5-frame video: sampled indices are
[0, 2, 4]; index 4 is a sampled multiple of 2 below 5. -/
theorem stride_correctness_witness :
    1 ≤ 2 ∧ ((sampled_tasks wVideo 2).map (fun t => t.2.1)).Nodup ∧
      (4 ∈ (sampled_tasks wVideo 2).map (fun t => t.2.1) ↔ (2 ∣ 4 ∧ 4 < wVideo.length)) :=
  ⟨by decide, (stride_correctness wVideo 2 (by decide)).1,
    (stride_correctness wVideo 2 (by decide)).2 4⟩

/-! Counting infrastructure for the per-video statistics. -/

theorem countP_partition {α : Type} (p q : α → Bool) : ∀ l : List α,
    (∀ a ∈ l, (p a = true ∧ q a = false) ∨ (p a = false ∧ q a = true)) →
      l.countP p + l.countP q = l.length
  | [], _ => rfl
  | a :: l, h => by
      have hrec := countP_partition p q l fun b hb => h b (List.mem_cons_of_mem a hb)
      rcases h a (List.mem_cons_self a l) with ⟨h1, h2⟩ | ⟨h1, h2⟩ <;>
        simp [List.countP_cons, h1, h2] <;> omega

theorem countP_split {α : Type} (p q : α → Bool) : ∀ l : List α,
    (∀ a ∈ l, q a = true → p a = true) →
      l.countP p = l.countP q + l.countP (fun a => !q a && p a)
  | [], _ => rfl
  | a :: l, h => by
      have hrec := countP_split p q l fun b hb => h b (List.mem_cons_of_mem a hb)
      by_cases hq : q a = true
      · have hp := h a (List.mem_cons_self a l) hq
        simp [List.countP_cons, hq, hp, hrec]
        omega
      · simp only [Bool.not_eq_true] at hq
        by_cases hp : p a = true <;>
          simp [List.countP_cons, hq, hp, hrec] <;> omega

theorem length_filterMap_fst : ∀ L : List Completion,
    (L.filterMap (fun c => c.1)).length = L.countP (fun c => c.1.isSome)
  | [] => rfl
  | c :: L => by
      cases h : c.1 <;>
        simp [List.filterMap_cons, List.countP_cons, h, length_filterMap_fst L]

/-- Number of sampled tasks rejected by the cheap invalid-frame check. -/
def invalid_frame_count (video : List Frame) (N : Nat) : Nat :=
  ((sampled_tasks video N).filter fun t => invalid_frame (some t.1)).length

/-- Number of sampled tasks with a valid frame whose attempted inference
still produced no analysis dict (a model exception, or the ValueError of
`max` on an empty emotion mapping). -/
def inference_error_count (video : List Frame) (N : Nat) (model : Nat → ModelCall) : Nat :=
  ((sampled_tasks video N).filter fun t =>
    !invalid_frame (some t.1) &&
      (analyse_emotion_multiproc (some t.1) t.2.1 t.2.2 (model t.2.1)).1.isNone).length

/-- C4: the emitted table has one row per sampled task minus one per failed
frame, the failed-frame count splits exactly into invalid-frame rejections
plus inference errors, and every completion is counted exactly once as a
success or a failure. -/
theorem completeness_under_failure (cfg : Config) (source : String) (video : List Frame)
    (N : Nat) (model : Nat → ModelCall) (completions : List Completion)
    (hperm : List.Perm completions (taskOutputs video N model)) :
    (analyse_video_internal cfg source completions).length
        = (sampled_tasks video N).length - (collectResults completions).2.2 ∧
      (collectResults completions).2.2
        = invalid_frame_count video N + inference_error_count video N model ∧
      (collectResults completions).2.1 + (collectResults completions).2.2
        = (sampled_tasks video N).length := by
  obtain ⟨hres, hana, hret⟩ := collectResults_fields completions
  have hp := fun (c : Completion) => (c.1.isSome : Bool)
  -- table length equals number of successes
  have hlen : (analyse_video_internal cfg source completions).length
      = completions.countP (fun c => c.1.isSome) := by
    rw [analyse_video_internal, List.length_insertionSort, List.length_map, hres,
      length_filterMap_fst]
  -- the worker output shape, for every element of the completion stream
  have hshape : ∀ c ∈ taskOutputs video N model,
      (c.1.isSome = true ∧ (c.1.isNone && c.2.2.isSome) = false) ∨
        (c.1.isSome = false ∧ (c.1.isNone && c.2.2.isSome) = true) := by
    intro c hc
    rw [taskOutputs, List.mem_map] at hc
    obtain ⟨t, _, rfl⟩ := hc
    cases hc1 : (analyse_emotion_multiproc (some t.1) t.2.1 t.2.2 (model t.2.1)).1 with
    | some d => left; simp [hc1]
    | none =>
        right
        rcases analyse_shape (some t.1) t.2.1 t.2.2 (model t.2.1) with ⟨h1, _⟩ | ⟨_, h2⟩
        · rw [hc1] at h1; simp at h1
        · simp [hc1, h2]
  -- success count + failure count covers the stream exactly once
  have hcover : completions.countP (fun c => c.1.isSome)
      + completions.countP (fun c => c.1.isNone && c.2.2.isSome)
      = completions.length := by
    rw [hperm.countP_eq, hperm.countP_eq, hperm.length_eq]
    exact countP_partition _ _ _ hshape
  have hsampled : completions.length = (sampled_tasks video N).length := by
    rw [hperm.length_eq, taskOutputs, List.length_map]
  -- failures split into invalid frames and inference errors
  have hfail : (collectResults completions).2.2
      = invalid_frame_count video N + inference_error_count video N model := by
    rw [hret, hperm.countP_eq, taskOutputs, List.countP_map]
    have hcong : (sampled_tasks video N).countP
          ((fun c : Completion => c.1.isNone && c.2.2.isSome) ∘
            fun t => analyse_emotion_multiproc (some t.1) t.2.1 t.2.2 (model t.2.1))
        = (sampled_tasks video N).countP
          (fun t => (analyse_emotion_multiproc (some t.1) t.2.1 t.2.2 (model t.2.1)).1.isNone) := by
      apply List.countP_congr
      intro t _
      simp only [Function.comp_def]
      cases hc1 : (analyse_emotion_multiproc (some t.1) t.2.1 t.2.2 (model t.2.1)).1 with
      | some d => simp [hc1]
      | none =>
          rcases analyse_shape (some t.1) t.2.1 t.2.2 (model t.2.1) with ⟨h1, _⟩ | ⟨_, h2⟩
          · rw [hc1] at h1; simp at h1
          · simp [hc1, h2]
    rw [hcong]
    have hsplit := countP_split
      (fun t : Frame × Nat × String =>
        (analyse_emotion_multiproc (some t.1) t.2.1 t.2.2 (model t.2.1)).1.isNone)
      (fun t : Frame × Nat × String => invalid_frame (some t.1))
      (sampled_tasks video N)
      (by
        intro t _ hinv
        have hinv2 : invalid_frame (some t.1) = true := hinv
        show (analyse_emotion_multiproc (some t.1) t.2.1 t.2.2 (model t.2.1)).1.isNone = true
        rw [analyse_invalid (some t.1) t.2.1 t.2.2 (model t.2.1) hinv2]
        rfl)
    rw [hsplit, invalid_frame_count, inference_error_count,
      List.countP_eq_length_filter, List.countP_eq_length_filter]
  refine ⟨?_, hfail, ?_⟩
  · rw [hlen, hret]
    omega
  · rw [hana, hret]
    omega

/-! Membership in an emitted per-video table. -/

theorem mem_table {cfg : Config} {source : String} {completions : List Completion}
    {row : Row} (hrow : row ∈ analyse_video_internal cfg source completions) :
    ∃ d : AnalysisDict, row = buildRow cfg source d ∧
      ∃ c ∈ completions, c.1 = some d := by
  rw [analyse_video_internal, List.mem_insertionSort, List.mem_map] at hrow
  obtain ⟨d, hd, rfl⟩ := hrow
  refine ⟨d, rfl, ?_⟩
  rw [(collectResults_fields completions).1, List.mem_filterMap] at hd
  obtain ⟨c, hc, hcd⟩ := hd
  exact ⟨c, hc, hcd⟩

theorem mem_table_of_perm {cfg : Config} {source : String} {video : List Frame}
    {N : Nat} {model : Nat → ModelCall} {completions : List Completion}
    (hperm : List.Perm completions (taskOutputs video N model))
    {row : Row} (hrow : row ∈ analyse_video_internal cfg source completions) :
    ∃ d : AnalysisDict, row = buildRow cfg source d ∧
      (∃ me, maxEntry d.emotion = some me) ∧
      ∃ conf reg, model d.frame_number = ModelCall.returns d.emotion conf reg := by
  obtain ⟨d, hbuild, c, hc, hcd⟩ := mem_table hrow
  have hct : c ∈ taskOutputs video N model := hperm.mem_iff.mp hc
  rw [taskOutputs, List.mem_map] at hct
  obtain ⟨t, _, rfl⟩ := hct
  obtain ⟨hfn, hmax, conf, reg, hm, _, _⟩ := analyse_some hcd
  exact ⟨d, hbuild, hmax, conf, reg, hfn ▸ hm⟩

/-- C1: in every emitted per-video table, a row whose face confidence is
below `FACE_CONFIDENCE_THRESHOLD` has all seven emotion columns equal to 0
and the sentinel dominant label, whatever the raw model scores were. -/
theorem gating_invariant (cfg : Config) (source : String) (completions : List Completion)
    (row : Row) (hrow : row ∈ analyse_video_internal cfg source completions)
    (hconf : row.face_confidence < cfg.FACE_CONFIDENCE_THRESHOLD) :
    row.angry = 0 ∧ row.disgust = 0 ∧ row.fear = 0 ∧ row.happy = 0 ∧
      row.sad = 0 ∧ row.surprise = 0 ∧ row.neutral = 0 ∧
      row.dominant_emotion = "no face detected" := by
  obtain ⟨d, rfl, -⟩ := mem_table hrow
  have hc : d.face_confidence < cfg.FACE_CONFIDENCE_THRESHOLD := hconf
  have hng : ¬ d.face_confidence ≥ cfg.FACE_CONFIDENCE_THRESHOLD := not_le.mpr hc
  simp [buildRow, gated_score, dominant_column, hng, hc]

/-- Configuration with integer-valued thresholds used by the witnesses (the
claims hold for every configuration, the shipped 0.8/50 one included). -/
def wCfg : Config := { FACE_CONFIDENCE_THRESHOLD := 1, EMOTION_SCORE_THRESHOLD := 50 }

/-- One-frame video for witnesses. -/
def wVideo1 : List Frame := [Frame.mk 2 2]

/-- Model reporting face confidence 0 (no face) with a high raw happy score. -/
def wModelLow : Nat → ModelCall :=
  fun _ => ModelCall.returns [("happy", 99)] 0 ""

/-- Completion stream of the one-frame video under `wModelLow`. -/
def wCompletionsLow : List Completion := taskOutputs wVideo1 1 wModelLow

/-- The analysis dict the worker produces for that single frame. -/
def wDictLow : AnalysisDict :=
  { frame_number := 0, emotion := [("happy", 99)], face_confidence := 0, region := "" }

/-- Witness for C1: the single emitted row has confidence 0 below the
threshold, zeroed emotion columns and the sentinel label. -/
theorem gating_invariant_witness :
    buildRow wCfg "v" wDictLow ∈ analyse_video_internal wCfg "v" wCompletionsLow ∧
      (buildRow wCfg "v" wDictLow).face_confidence < wCfg.FACE_CONFIDENCE_THRESHOLD ∧
      ((buildRow wCfg "v" wDictLow).angry = 0 ∧ (buildRow wCfg "v" wDictLow).disgust = 0 ∧
        (buildRow wCfg "v" wDictLow).fear = 0 ∧ (buildRow wCfg "v" wDictLow).happy = 0 ∧
        (buildRow wCfg "v" wDictLow).sad = 0 ∧ (buildRow wCfg "v" wDictLow).surprise = 0 ∧
        (buildRow wCfg "v" wDictLow).neutral = 0 ∧
        (buildRow wCfg "v" wDictLow).dominant_emotion = "no face detected") :=
  ⟨by decide, by decide,
    gating_invariant wCfg "v" wCompletionsLow (buildRow wCfg "v" wDictLow)
      (by decide) (by decide)⟩

/-- C5: the combined table is a permutation of the concatenation of all
per-video tables (no record dropped or duplicated), its row count is the sum
of the per-video row counts, and it is sorted by source first and frame
number second. -/
theorem combined_table_invariant (tables : List (List Row)) :
    (process_all_videos tables).length = (tables.map List.length).sum ∧
      List.Perm (process_all_videos tables) tables.flatten ∧
      (process_all_videos tables).Pairwise sourceFrameLE := by
  refine ⟨?_, List.perm_insertionSort _ _, List.sorted_insertionSort _ _⟩
  rw [process_all_videos, List.length_insertionSort, List.length_flatten]

/-- Counterexample for C7: the combined table's column order differs from the
per-video column order (the combined table places `source` second, the
per-video table places it last). -/
theorem combined_columns_counterexample :
    combined_columns ≠ columns_order_per_video := by decide

/-- C7 (amended): the per-video column order is as claimed, but the combined
table moves `source` to the second position. -/
theorem table_column_orders :
    columns_order_per_video
        = ["frame_number", "dominant_emotion", "angry", "disgust", "fear", "happy",
            "sad", "surprise", "neutral", "face_confidence", "region", "raw_output",
            "source"] ∧
      combined_columns
        = ["frame_number", "source", "dominant_emotion", "angry", "disgust", "fear",
            "happy", "sad", "surprise", "neutral", "face_confidence", "region",
            "raw_output"] :=
  ⟨by decide, by decide⟩

/-- C2: in every emitted per-video table, a row at or above the face
threshold carries either a dominant label naming an entry of its raw score
mapping whose score is maximal and reaches `EMOTION_SCORE_THRESHOLD`, or the
sentinel label when no raw score reaches that threshold. -/
theorem dominance_invariant (cfg : Config) (source : String) (video : List Frame)
    (N : Nat) (model : Nat → ModelCall) (completions : List Completion)
    (hperm : List.Perm completions (taskOutputs video N model))
    (row : Row) (hrow : row ∈ analyse_video_internal cfg source completions)
    (hconf : row.face_confidence ≥ cfg.FACE_CONFIDENCE_THRESHOLD) :
    (∃ v : ℚ, (row.dominant_emotion, v) ∈ row.raw_output ∧
        (∀ q ∈ row.raw_output, q.2 ≤ v) ∧ v ≥ cfg.EMOTION_SCORE_THRESHOLD) ∨
      (row.dominant_emotion = "no dominant emotion detected" ∧
        ∀ q ∈ row.raw_output, q.2 < cfg.EMOTION_SCORE_THRESHOLD) := by
  obtain ⟨d, rfl, ⟨me, hme⟩, -⟩ := mem_table_of_perm hperm hrow
  have hc : d.face_confidence ≥ cfg.FACE_CONFIDENCE_THRESHOLD := hconf
  have hnl : ¬ d.face_confidence < cfg.FACE_CONFIDENCE_THRESHOLD := not_lt.mpr hc
  obtain ⟨hmem, hmax⟩ := maxEntry_spec hme
  have hraw : (buildRow cfg source d).raw_output = d.emotion := rfl
  have hdom : (buildRow cfg source d).dominant_emotion
      = get_dominant_emotion cfg d.emotion := by
    simp [buildRow, dominant_column, hnl]
  rw [hraw, hdom, get_dominant_emotion, hme]
  by_cases hth : me.2 ≥ cfg.EMOTION_SCORE_THRESHOLD
  · left
    refine ⟨me.2, ?_, hmax, hth⟩
    simp only [hth, if_pos]
    simpa using hmem
  · right
    refine ⟨by simp [hth], ?_⟩
    intro q hq
    exact lt_of_le_of_lt (hmax q hq) (not_le.mp hth)

/-- Model reporting face confidence 1 with scores happy 60, sad 40. -/
def wModelHigh : Nat → ModelCall :=
  fun _ => ModelCall.returns [("happy", 60), ("sad", 40)] 1 ""

/-- Completion stream of the one-frame video under `wModelHigh`. -/
def wCompletionsHigh : List Completion := taskOutputs wVideo1 1 wModelHigh

/-- The analysis dict the worker produces for that frame under `wModelHigh`. -/
def wDictHigh : AnalysisDict :=
  { frame_number := 0, emotion := [("happy", 60), ("sad", 40)],
    face_confidence := 1, region := "" }

/-- Witness for C2: the single high-confidence row is dominated by happy with
maximal score 60 at or above the threshold 50. -/
theorem dominance_invariant_witness :
    List.Perm wCompletionsHigh (taskOutputs wVideo1 1 wModelHigh) ∧
      buildRow wCfg "v" wDictHigh ∈ analyse_video_internal wCfg "v" wCompletionsHigh ∧
      (buildRow wCfg "v" wDictHigh).face_confidence ≥ wCfg.FACE_CONFIDENCE_THRESHOLD ∧
      ((∃ v : ℚ, ((buildRow wCfg "v" wDictHigh).dominant_emotion, v)
            ∈ (buildRow wCfg "v" wDictHigh).raw_output ∧
          (∀ q ∈ (buildRow wCfg "v" wDictHigh).raw_output, q.2 ≤ v) ∧
          v ≥ wCfg.EMOTION_SCORE_THRESHOLD) ∨
        ((buildRow wCfg "v" wDictHigh).dominant_emotion = "no dominant emotion detected" ∧
          ∀ q ∈ (buildRow wCfg "v" wDictHigh).raw_output,
            q.2 < wCfg.EMOTION_SCORE_THRESHOLD)) :=
  ⟨List.Perm.refl _, by decide, by decide,
    dominance_invariant wCfg "v" wVideo1 1 wModelHigh wCompletionsHigh (List.Perm.refl _)
      (buildRow wCfg "v" wDictHigh) (by decide) (by decide)⟩

/-- C10: every emitted row carries a non-empty raw mapping, and its dominant
label is one of the seven emotion names or one of the two sentinels — the
helper's value for an empty mapping is unreachable, because a successful
worker result always has a non-empty emotion mapping (the argmax of an empty
mapping raises inside the worker and becomes a failure with no row). -/
theorem dominant_label_range (cfg : Config) (source : String) (video : List Frame)
    (N : Nat) (model : Nat → ModelCall) (completions : List Completion)
    (hperm : List.Perm completions (taskOutputs video N model))
    (hkeys : ∀ n e conf reg, model n = ModelCall.returns e conf reg →
      ∀ q ∈ e, q.1 ∈ emotions_list)
    (row : Row) (hrow : row ∈ analyse_video_internal cfg source completions) :
    row.raw_output ≠ [] ∧
      row.dominant_emotion
        ∈ emotions_list ++ ["no face detected", "no dominant emotion detected"] := by
  obtain ⟨d, rfl, ⟨me, hme⟩, conf, reg, hm⟩ := mem_table_of_perm hperm hrow
  have hne : (buildRow cfg source d).raw_output ≠ [] := by
    intro h
    have hh : d.emotion = [] := h
    rw [hh] at hme
    simp [maxEntry] at hme
  refine ⟨hne, ?_⟩
  have hdom : (buildRow cfg source d).dominant_emotion = dominant_column cfg d := rfl
  rw [hdom, dominant_column]
  split
  · decide
  · have hg : get_dominant_emotion cfg d.emotion
        = if me.2 ≥ cfg.EMOTION_SCORE_THRESHOLD then me.1
          else "no dominant emotion detected" := by
      rw [get_dominant_emotion, hme]
    rw [hg]
    by_cases hth : me.2 ≥ cfg.EMOTION_SCORE_THRESHOLD
    · rw [if_pos hth]
      exact List.mem_append.mpr
        (Or.inl (hkeys d.frame_number d.emotion conf reg hm me (maxEntry_spec hme).1))
    · rw [if_neg hth]
      decide

/-- Witness for C10 on the one-frame high-confidence run: its row has a
non-empty raw mapping and the dominant label lies in the allowed range. -/
theorem dominant_label_range_witness :
    List.Perm wCompletionsHigh (taskOutputs wVideo1 1 wModelHigh) ∧
      buildRow wCfg "v" wDictHigh ∈ analyse_video_internal wCfg "v" wCompletionsHigh ∧
      ((buildRow wCfg "v" wDictHigh).raw_output ≠ [] ∧
        (buildRow wCfg "v" wDictHigh).dominant_emotion
          ∈ emotions_list ++ ["no face detected", "no dominant emotion detected"]) :=
  ⟨List.Perm.refl _, by decide,
    dominant_label_range wCfg "v" wVideo1 1 wModelHigh wCompletionsHigh (List.Perm.refl _)
      (by
        rintro n e conf reg h q hq
        simp only [wModelHigh, ModelCall.returns.injEq] at h
        obtain ⟨rfl, rfl, rfl⟩ := h
        simp only [List.mem_cons, List.not_mem_nil, or_false] at hq
        rcases hq with rfl | rfl <;> decide)
      (buildRow wCfg "v" wDictHigh) (by decide)⟩

theorem outputs_index_sublist (model : Nat → ModelCall) :
    ∀ tasks : List (Frame × Nat × String),
      List.Sublist
        (((tasks.map fun t =>
            analyse_emotion_multiproc (some t.1) t.2.1 t.2.2 (model t.2.1)).filterMap
              (fun c => c.1)).map AnalysisDict.frame_number)
        (tasks.map fun t => t.2.1)
  | [] => List.Sublist.refl _
  | t :: tasks => by
      have ih := outputs_index_sublist model tasks
      cases hc1 : (analyse_emotion_multiproc (some t.1) t.2.1 t.2.2 (model t.2.1)).1 with
      | none =>
          simp only [List.map_cons, List.filterMap_cons, hc1]
          exact ih.cons _
      | some d =>
          have hfn : d.frame_number = t.2.1 := (analyse_some hc1).1
          simp only [List.map_cons, List.filterMap_cons, hc1]
          rw [hfn]
          exact ih.cons₂ _

/-- C6: the frame_number column of every emitted per-video table is strictly
increasing row to row — the sort restores the order the unordered completion
stream lost, and no frame index occurs twice. -/
theorem ordering_invariant (cfg : Config) (source : String) (video : List Frame)
    (N : Nat) (model : Nat → ModelCall) (completions : List Completion)
    (hperm : List.Perm completions (taskOutputs video N model)) :
    (analyse_video_internal cfg source completions).Pairwise
      (fun a b => a.frame_number < b.frame_number) := by
  have hle : (analyse_video_internal cfg source completions).Pairwise frameLE :=
    List.sorted_insertionSort frameLE _
  have hperm2 : List.Perm (analyse_video_internal cfg source completions)
      (((collectResults completions).1).map (buildRow cfg source)) :=
    List.perm_insertionSort frameLE _
  have hres : (collectResults completions).1 = completions.filterMap (fun c => c.1) :=
    (collectResults_fields completions).1
  have hidx_nodup : ((sampled_tasks video N).map (fun t => t.2.1)).Nodup := by
    rw [sampled_indices]
    exact (List.nodup_range _).filter _
  have hout_nodup :
      (((taskOutputs video N model).filterMap (fun c => c.1)).map
          AnalysisDict.frame_number).Nodup :=
    hidx_nodup.sublist (outputs_index_sublist model (sampled_tasks video N))
  have htab_nodup :
      ((analyse_video_internal cfg source completions).map Row.frame_number).Nodup := by
    have p1 : List.Perm
        ((analyse_video_internal cfg source completions).map Row.frame_number)
        ((((collectResults completions).1).map (buildRow cfg source)).map Row.frame_number) :=
      hperm2.map _
    rw [List.map_map] at p1
    have hcomp : (Row.frame_number ∘ buildRow cfg source) = AnalysisDict.frame_number :=
      funext fun d => rfl
    rw [hcomp, hres] at p1
    have p2 : List.Perm ((completions.filterMap fun c => c.1).map AnalysisDict.frame_number)
        (((taskOutputs video N model).filterMap fun c => c.1).map AnalysisDict.frame_number) :=
      (hperm.filterMap _).map _
    exact (p1.trans p2).nodup_iff.mpr hout_nodup
  have hne := List.pairwise_map.mp htab_nodup
  exact (hle.and hne).imp fun h => lt_of_le_of_ne h.1 h.2

/-- Model raising on frame 2 and succeeding with confidence 1 elsewhere. -/
def wModelMix : Nat → ModelCall :=
  fun n => if n = 2 then ModelCall.raises
    else ModelCall.returns [("happy", 60), ("sad", 40)] 1 ""

/-- Completion stream of the 5-frame video, stride 2, under `wModelMix`. -/
def wCompletionsMix : List Completion := taskOutputs wVideo 2 wModelMix

/-- Witness for C6 on the 5-frame video with a failing middle frame. -/
theorem ordering_invariant_witness :
    List.Perm wCompletionsMix (taskOutputs wVideo 2 wModelMix) ∧
      (analyse_video_internal wCfg "v" wCompletionsMix).Pairwise
        (fun a b => a.frame_number < b.frame_number) :=
  ⟨List.Perm.refl _,
    ordering_invariant wCfg "v" wVideo 2 wModelMix wCompletionsMix (List.Perm.refl _)⟩

/-- Five-frame video whose first frame has zero height. -/
def wVideoBad : List Frame :=
  [Frame.mk 0 2, Frame.mk 2 2, Frame.mk 2 2, Frame.mk 2 2, Frame.mk 2 2]

/-- Completion stream of the bad 5-frame video, stride 2, under `wModelMix`. -/
def wCompletionsMix0 : List Completion := taskOutputs wVideoBad 2 wModelMix

/-- Witness for C4 on the 5-frame video with one invalid frame (index 0) and
one model exception (index 2): 3 sampled tasks, 1 row, 2 failures. -/
theorem completeness_under_failure_witness :
    List.Perm wCompletionsMix0 (taskOutputs wVideoBad 2 wModelMix) ∧
      ((analyse_video_internal config "v" wCompletionsMix0).length
          = (sampled_tasks wVideoBad 2).length - (collectResults wCompletionsMix0).2.2 ∧
        (collectResults wCompletionsMix0).2.2
          = invalid_frame_count wVideoBad 2 + inference_error_count wVideoBad 2 wModelMix ∧
        (collectResults wCompletionsMix0).2.1 + (collectResults wCompletionsMix0).2.2
          = (sampled_tasks wVideoBad 2).length) :=
  ⟨List.Perm.refl _,
    completeness_under_failure config "v" wVideoBad 2 wModelMix wCompletionsMix0
      (List.Perm.refl _)⟩

end DeepFaceDemo
